import Mathlib

/-!
Verification of the WorkflowExecutionEngine core against its specification.

The Python sources under `src/` are shallowly embedded as executable Lean
definitions: enums become inductive types, dataclasses become structures,
the durable store and the Redis queue become explicit state records that
every operation threads, and fallible service operations return their
updated store together with an `Except` result (an exception raised after
partial writes leaves those writes in the returned store, exactly as in
the source).  External task handlers are nondeterministic in the source;
here they are passed in as an oracle mapping the attempt number and input
to the outcome of that invocation.
-/

namespace WEE

/-! ## Domain enums (src/src/domain/enums.py) -/

/-- `ExecutionStatus` from enums.py. -/
inductive ExecutionStatus
  | pending
  | running
  | completed
  | failed
  | retrying
  | cancelled
deriving DecidableEq, Repr, Fintype

/-- `StepStatus` from enums.py. -/
inductive StepStatus
  | pending
  | running
  | completed
  | failed
  | skipped
deriving DecidableEq, Repr, Fintype

/-- `WorkflowStatus` from enums.py. -/
inductive WorkflowStatus
  | draft
  | active
  | deprecated
  | archived
deriving DecidableEq, Repr, Fintype

/-- `LogLevel` from enums.py. -/
inductive LogLevel
  | debug
  | info
  | warning
  | error
deriving DecidableEq, Repr, Fintype

open ExecutionStatus

/-! ## State machine (src/src/domain/state_machine.py) -/

/-- `WorkflowStateMachine.TRANSITIONS`: the valid targets for each state,
in the order the source lists them. -/
def TRANSITIONS : ExecutionStatus → List ExecutionStatus
  | .pending => [.running, .cancelled]
  | .running => [.completed, .failed, .cancelled]
  | .failed => [.retrying, .cancelled]
  | .retrying => [.running, .failed, .cancelled]
  | .completed => []
  | .cancelled => []

/-- `WorkflowStateMachine.TERMINAL_STATES` (note: the source includes
`failed`). -/
def TERMINAL_STATES : List ExecutionStatus := [.completed, .failed, .cancelled]

/-- `WorkflowStateMachine.can_transition`. -/
def can_transition (from_state to_state : ExecutionStatus) : Bool :=
  decide (to_state ∈ TRANSITIONS from_state)

/-- `InvalidTransitionError` carries the offending pair of states. -/
structure InvalidTransitionError where
  from_state : ExecutionStatus
  to_state : ExecutionStatus
deriving DecidableEq, Repr

/-- `WorkflowStateMachine.validate_transition`: raises on an invalid pair,
returns unit otherwise. -/
def validate_transition (from_state to_state : ExecutionStatus) :
    Except InvalidTransitionError Unit :=
  if can_transition from_state to_state then .ok ()
  else .error ⟨from_state, to_state⟩

/-- `WorkflowStateMachine.is_terminal`. -/
def sm_is_terminal (state : ExecutionStatus) : Bool :=
  decide (state ∈ TERMINAL_STATES)

/-- `WorkflowStateMachine.can_retry`. -/
def sm_can_retry (state : ExecutionStatus) : Bool :=
  decide (state ∈ [ExecutionStatus.failed])

/-- The transition table exactly as the specification's §4.1 table writes
it, sentence for sentence: pending→{running, cancelled},
running→{completed, failed, cancelled}, failed→{retrying, cancelled},
retrying→{running, failed, cancelled}, nothing out of completed or
cancelled.  Kept separate from `TRANSITIONS` so the two can be compared. -/
def specTransitionTable (a b : ExecutionStatus) : Bool :=
  match a with
  | .pending => b = .running || b = .cancelled
  | .running => b = .completed || b = .failed || b = .cancelled
  | .failed => b = .retrying || b = .cancelled
  | .retrying => b = .running || b = .failed || b = .cancelled
  | .completed => false
  | .cancelled => false

instance (ε α : Type) [DecidableEq ε] [DecidableEq α] :
    DecidableEq (Except ε α) := fun
  | .ok a, .ok b =>
      if h : a = b then isTrue (by rw [h]) else isFalse (fun hh => h (Except.ok.inj hh))
  | .ok _, .error _ => isFalse (fun hh => Except.noConfusion hh)
  | .error _, .ok _ => isFalse (fun hh => Except.noConfusion hh)
  | .error e, .error f =>
      if h : e = f then isTrue (by rw [h]) else isFalse (fun hh => h (Except.error.inj hh))

/-- C3: for every pair of execution states, `can_transition` agrees with
the §4.1 table, and `validate_transition` raises `InvalidTransitionError`
precisely on the pairs outside the table and returns normally on the pairs
inside it. -/
theorem can_transition_matches_spec_table :
    ∀ a b : ExecutionStatus,
      (can_transition a b = specTransitionTable a b) ∧
      (specTransitionTable a b = true → validate_transition a b = .ok ()) ∧
      (specTransitionTable a b = false →
        validate_transition a b = .error ⟨a, b⟩) := by
  decide

/-- Concrete application of C3: `pending → running` is accepted and
`completed → running` is refused. -/
theorem can_transition_matches_spec_table_witness :
    validate_transition .pending .running = .ok () ∧
    validate_transition .completed .running =
      .error ⟨.completed, .running⟩ :=
  ⟨(can_transition_matches_spec_table .pending .running).2.1 (by decide),
   (can_transition_matches_spec_table .completed .running).2.2 (by decide)⟩

/-! ## BFS path finder (`WorkflowStateMachine.get_transition_path`) -/

/-- Inner neighbor loop of the BFS: for each successor of the dequeued
state (in `TRANSITIONS` order), return the extended path immediately when
the successor is the target, otherwise enqueue it when unvisited. -/
def bfsExpand (target : ExecutionStatus) (path : List ExecutionStatus) :
    List ExecutionStatus → List ExecutionStatus →
    List (ExecutionStatus × List ExecutionStatus) →
    Sum (List ExecutionStatus)
      (List ExecutionStatus × List (ExecutionStatus × List ExecutionStatus))
  | [], visited, enq => .inr (visited, enq)
  | n :: ns, visited, enq =>
    if n = target then .inl (path ++ [n])
    else if n ∈ visited then bfsExpand target path ns visited enq
    else bfsExpand target path ns (visited ++ [n]) (enq ++ [(n, path ++ [n])])

/-- The BFS work loop of `get_transition_path`.  `fuel` bounds the number
of dequeues; on the six-state graph at most seven entries are ever
enqueued, so the fuel of 36 supplied below is never exhausted. -/
def bfsAux (target : ExecutionStatus) :
    Nat → List (ExecutionStatus × List ExecutionStatus) →
    List ExecutionStatus → Option (List ExecutionStatus)
  | 0, _, _ => none
  | _ + 1, [], _ => none
  | fuel + 1, (current, path) :: rest, visited =>
    match bfsExpand target path (TRANSITIONS current) visited [] with
    | .inl found => some found
    | .inr (visited2, enq) => bfsAux target fuel (rest ++ enq) visited2

/-- `WorkflowStateMachine.get_transition_path`: BFS over the transition
graph, returning the path as a list of states, or `none` when no path
exists; the singleton is returned up front when the endpoints agree. -/
def get_transition_path (from_state to_state : ExecutionStatus) :
    Option (List ExecutionStatus) :=
  if from_state = to_state then some [from_state]
  else bfsAux to_state 36 [(from_state, [from_state])] [from_state]

/-- `b` is reachable from `a` by at most `n` legal transitions. -/
def reachableIn : Nat → ExecutionStatus → ExecutionStatus → Bool
  | 0, a, b => decide (a = b)
  | n + 1, a, b =>
      decide (a = b) || (TRANSITIONS a).any (fun c => reachableIn n c b)

/-- Abstract reachability along legal single-step transitions. -/
def Reachable (a b : ExecutionStatus) : Prop :=
  Relation.ReflTransGen (fun x y => can_transition x y = true) a b

/-- A list of states in which every consecutive pair is a legal
transition. -/
def chainOk : List ExecutionStatus → Bool
  | [] => true
  | [_] => true
  | a :: b :: rest => can_transition a b && chainOk (b :: rest)

theorem reachableIn_refl (n : Nat) (a : ExecutionStatus) :
    reachableIn n a a = true := by
  cases n <;> simp [reachableIn]

theorem reachableIn_mono {m n : Nat} (h : m ≤ n) {a b : ExecutionStatus}
    (hr : reachableIn m a b = true) : reachableIn n a b = true := by
  induction m generalizing n a b with
  | zero =>
      have hab : a = b := by simpa [reachableIn] using hr
      subst hab; exact reachableIn_refl n a
  | succ m ih =>
      obtain ⟨n', rfl⟩ : ∃ n', n = n' + 1 :=
        ⟨n - 1, by omega⟩
      simp only [reachableIn, Bool.or_eq_true, decide_eq_true_eq,
        List.any_eq_true] at hr ⊢
      rcases hr with hab | ⟨c, hc, hrc⟩
      · exact Or.inl hab
      · exact Or.inr ⟨c, hc, ih (by omega) hrc⟩

theorem reachableIn_sound {n : Nat} {a b : ExecutionStatus}
    (h : reachableIn n a b = true) : Reachable a b := by
  induction n generalizing a with
  | zero =>
      have hab : a = b := by simpa [reachableIn] using h
      subst hab; exact Relation.ReflTransGen.refl
  | succ n ih =>
      simp only [reachableIn, Bool.or_eq_true, decide_eq_true_eq,
        List.any_eq_true] at h
      rcases h with hab | ⟨c, hc, hrc⟩
      · subst hab; exact Relation.ReflTransGen.refl
      · exact Relation.ReflTransGen.head
          (by simpa [can_transition] using hc) (ih hrc)

theorem reachableIn_step_closure :
    ∀ a c b : ExecutionStatus, reachableIn 5 a c = true →
      can_transition c b = true → reachableIn 5 a b = true := by
  decide

theorem reachable_complete {a b : ExecutionStatus}
    (h : Reachable a b) : reachableIn 5 a b = true := by
  induction h with
  | refl => exact reachableIn_refl 5 a
  | tail _ hbc ih => exact reachableIn_step_closure _ _ _ ih hbc

theorem chainOk_reachableIn :
    ∀ (q : List ExecutionStatus) (a b : ExecutionStatus),
      chainOk q = true → q.head? = some a → q.getLast? = some b →
      reachableIn (q.length - 1) a b = true := by
  intro q
  induction q with
  | nil => intro a b _ h; exact absurd h (by simp)
  | cons x t ih =>
      intro a b hchain hhead hlast
      have hax : a = x := by simpa using hhead.symm
      subst hax
      cases t with
      | nil =>
          have hb : a = b := by simpa using hlast
          subst hb; exact reachableIn_refl 0 a
      | cons y rest =>
          simp only [chainOk, Bool.and_eq_true] at hchain
          have hlast2 : (y :: rest).getLast? = some b := by
            simpa [List.getLast?_cons_cons] using hlast
          have hr := ih y b hchain.2 (by simp) hlast2
          show reachableIn ((y :: rest).length) a b = true
          simp only [List.length_cons, reachableIn, Bool.or_eq_true,
            List.any_eq_true]
          refine Or.inr ⟨y, ?_, ?_⟩
          · have := hchain.1
            simpa [can_transition] using this
          · simpa using hr

/-- Per-pair executable check of the BFS contract: when `none` the target
is not reachable within five edges; when `some p`, `p` runs from `a` to
`b`, every consecutive pair is legal, and no strictly shorter legal path
exists (there is no path of at most `p.length - 2` edges). -/
def pathAgrees (a b : ExecutionStatus) : Bool :=
  match get_transition_path a b with
  | none => !(reachableIn 5 a b)
  | some p =>
      decide (p.head? = some a) && decide (p.getLast? = some b) &&
      chainOk p && decide (p.length ≤ 6) &&
      (decide (p.length ≤ 1) || !(reachableIn (p.length - 2) a b))

theorem pathAgrees_all : ∀ a b : ExecutionStatus, pathAgrees a b = true := by
  decide

/-- C9: `get_transition_path a b` returns `none` exactly when `b` is
unreachable from `a` via legal transitions; otherwise it returns a list
that starts at `a`, ends at `b`, whose consecutive pairs are all legal
single-step transitions, and which is no longer than any other such legal
path; and for `a = b` it returns the singleton `[a]`. -/
theorem get_transition_path_correct :
    ∀ a b : ExecutionStatus,
      (get_transition_path a b = none ↔ ¬ Reachable a b) ∧
      (∀ p, get_transition_path a b = some p →
        p.head? = some a ∧ p.getLast? = some b ∧ chainOk p = true ∧
        ∀ q, chainOk q = true → q.head? = some a → q.getLast? = some b →
          p.length ≤ q.length) ∧
      get_transition_path a a = some [a] := by
  intro a b
  have hA := pathAgrees_all a b
  refine ⟨?_, ?_, by simp [get_transition_path]⟩
  · constructor
    · intro hnone hreach
      rw [pathAgrees, hnone] at hA
      exact absurd (reachable_complete hreach) (by simpa using hA)
    · intro hun
      cases hp : get_transition_path a b with
      | none => rfl
      | some p =>
          rw [pathAgrees, hp] at hA
          simp only [Bool.and_eq_true, decide_eq_true_eq] at hA
          obtain ⟨⟨⟨⟨hhead, hlastp⟩, hchain⟩, _⟩, _⟩ := hA
          exact absurd
            (reachableIn_sound (chainOk_reachableIn p a b hchain hhead hlastp))
            hun
  · intro p hp
    rw [pathAgrees, hp] at hA
    simp only [Bool.and_eq_true, decide_eq_true_eq, Bool.or_eq_true,
      Bool.not_eq_true'] at hA
    obtain ⟨⟨⟨⟨hhead, hlastp⟩, hchain⟩, _hlen6⟩, hmin⟩ := hA
    refine ⟨hhead, hlastp, hchain, ?_⟩
    intro q hq hqh hql
    by_contra hlt
    push_neg at hlt
    have hq1 : 1 ≤ q.length := by
      cases q with
      | nil => exact absurd hqh (by simp)
      | cons _ _ => simp
    rcases hmin with hp1 | hfar
    · omega
    · have hqr := chainOk_reachableIn q a b hq hqh hql
      have : reachableIn (p.length - 2) a b = true :=
        reachableIn_mono (by omega) hqr
      rw [this] at hfar
      exact Bool.noConfusion hfar

/-- Concrete application of the BFS contract: `pending` is not reachable
from `completed`. -/
theorem get_transition_path_correct_witness :
    ¬ Reachable ExecutionStatus.completed ExecutionStatus.pending :=
  (get_transition_path_correct .completed .pending).1.mp (by decide)

/-! ## Data model (src/src/domain/entities.py)

Identifiers (uuid4 in the source) are modelled as naturals drawn from a
fresh-id counter carried by the store.  Timestamps are incidental to every
claim and are omitted.  JSON-shaped blobs are flat association lists from
string keys to opaque scalar values. -/

/-- An opaque JSON scalar. -/
inductive JVal
  | num (n : Nat)
  | str (s : String)
deriving DecidableEq, Repr

/-- A JSON-shaped blob: keys to opaque scalars. -/
abbrev Data := List (String × JVal)

/-- Assignment `d[k] = v` on a blob. -/
def dataSet (d : Data) (k : String) (v : JVal) : Data :=
  if d.any (fun p => p.1 == k) then
    d.map (fun p => if p.1 == k then (k, v) else p)
  else d ++ [(k, v)]

/-- Python `dict.update`: shallow merge, right side wins. -/
def dataUpdate (d upd : Data) : Data :=
  upd.foldl (fun acc kv => dataSet acc kv.1 kv.2) d

/-- `WorkflowStep` from entities.py (creation timestamps omitted). -/
structure WorkflowStep where
  id : Nat
  workflow_id : Nat
  name : String
  task_type : String
  step_order : Int
  config : Data
  timeout_seconds : Int
  max_retries : Nat
deriving DecidableEq, Repr

/-- `Workflow` from entities.py. -/
structure Workflow where
  id : Nat
  name : String
  description : String
  status : WorkflowStatus
  version : Nat
  steps : List WorkflowStep
deriving DecidableEq, Repr

/-- `StepExecution` from entities.py. -/
structure StepExecution where
  id : Nat
  execution_id : Nat
  step_id : Nat
  step_order : Int
  status : StepStatus
  attempt_number : Nat
  input_data : Data
  output_data : Option Data
  error_message : Option String
  error_details : Option Data
deriving DecidableEq, Repr

/-- `StepExecution.create`: fresh record in `pending` with attempt 1. -/
def StepExecution.create (id execution_id step_id : Nat) (step_order : Int)
    (input_data : Data) : StepExecution :=
  { id := id, execution_id := execution_id, step_id := step_id,
    step_order := step_order, status := .pending, attempt_number := 1,
    input_data := input_data, output_data := none, error_message := none,
    error_details := none }

/-- The structured output the orchestrator persists on success:
`{steps: step_outputs, final_data: current_data}`. -/
structure ExecOutput where
  steps : List (String × Data)
  final_data : Data
deriving DecidableEq, Repr

/-- `WorkflowExecution` from entities.py. -/
structure WorkflowExecution where
  id : Nat
  workflow_id : Nat
  idempotency_key : String
  status : ExecutionStatus
  current_step_order : Int
  retry_count : Nat
  max_retries : Nat
  input_data : Data
  output_data : Option ExecOutput
  error_message : Option String
deriving DecidableEq, Repr

/-- `WorkflowExecution.create`: fresh execution in `pending`. -/
def WorkflowExecution.create (id workflow_id : Nat) (idempotency_key : String)
    (input_data : Data) (max_retries : Nat) : WorkflowExecution :=
  { id := id, workflow_id := workflow_id, idempotency_key := idempotency_key,
    status := .pending, current_step_order := 0, retry_count := 0,
    max_retries := max_retries, input_data := input_data,
    output_data := none, error_message := none }

/-- `WorkflowExecution.is_terminal` — the source includes `failed`. -/
def WorkflowExecution.is_terminal (e : WorkflowExecution) : Bool :=
  decide (e.status ∈ [ExecutionStatus.completed, .failed, .cancelled])

/-- `WorkflowExecution.can_retry`. -/
def WorkflowExecution.can_retry (e : WorkflowExecution) : Bool :=
  e.status == .failed && e.retry_count < e.max_retries

/-- `ExecutionLog` from entities.py (free-form details omitted: they are
never branched on). -/
structure ExecutionLog where
  execution_id : Nat
  step_execution_id : Option Nat
  level : LogLevel
  message : String
deriving DecidableEq, Repr

/-- The enum's string value, used in error messages. -/
def ExecutionStatus.value : ExecutionStatus → String
  | .pending => "pending"
  | .running => "running"
  | .completed => "completed"
  | .failed => "failed"
  | .retrying => "retrying"
  | .cancelled => "cancelled"

/-! ## Durable store and repositories (src/src/persistence/repositories.py)

The relational tables become lists kept in insertion order; row updates
map over the list replacing the matching row in place. -/

/-- The durable store plus the fresh-id source. -/
structure Store where
  workflows : List Workflow
  executions : List WorkflowExecution
  step_executions : List StepExecution
  logs : List ExecutionLog
  next_id : Nat
deriving DecidableEq, Repr

/-- `WorkflowRepository.get_workflow_by_id`. -/
def get_workflow_by_id (st : Store) (workflow_id : Nat) : Option Workflow :=
  st.workflows.find? (fun w => w.id == workflow_id)

/-- `ExecutionRepository.get_execution_by_id`. -/
def get_execution_by_id (st : Store) (execution_id : Nat) :
    Option WorkflowExecution :=
  st.executions.find? (fun e => e.id == execution_id)

/-- `ExecutionRepository.get_execution_by_idempotency_key`. -/
def get_execution_by_idempotency_key (st : Store) (workflow_id : Nat)
    (idempotency_key : String) : Option WorkflowExecution :=
  st.executions.find?
    (fun e => e.workflow_id == workflow_id &&
      e.idempotency_key == idempotency_key)

/-- `ExecutionRepository.create_execution`: row insert. -/
def repo_create_execution (st : Store) (e : WorkflowExecution) : Store :=
  { st with executions := st.executions ++ [e] }

/-- `ExecutionRepository.update_execution_status`: partial row update of
the matching execution (status always; `error_message` and
`current_step_order` only when supplied). -/
def repo_update_execution_status (st : Store) (execution_id : Nat)
    (status : ExecutionStatus) (error_message : Option String)
    (current_step_order : Option Int) : Store :=
  { st with executions := st.executions.map (fun e =>
      if e.id == execution_id then
        { e with
          status := status,
          error_message := match error_message with
            | some m => some m
            | none => e.error_message,
          current_step_order := match current_step_order with
            | some c => c
            | none => e.current_step_order }
      else e) }

/-- `ExecutionRepository.set_output_data`. -/
def repo_set_output_data (st : Store) (execution_id : Nat)
    (output_data : ExecOutput) : Store :=
  { st with executions := st.executions.map (fun e =>
      if e.id == execution_id then { e with output_data := some output_data }
      else e) }

/-- `ExecutionRepository.create_step_execution`: row insert. -/
def repo_create_step_execution (st : Store) (se : StepExecution) : Store :=
  { st with step_executions := st.step_executions ++ [se] }

/-- `ExecutionRepository.update_step_execution`: partial row update. -/
def repo_update_step_execution (st : Store) (step_exec_id : Nat)
    (status : StepStatus) (output_data : Option Data)
    (error_message : Option String) (error_details : Option Data) : Store :=
  { st with step_executions := st.step_executions.map (fun se =>
      if se.id == step_exec_id then
        { se with
          status := status,
          output_data := match output_data with
            | some o => some o
            | none => se.output_data,
          error_message := match error_message with
            | some m => some m
            | none => se.error_message,
          error_details := match error_details with
            | some d => some d
            | none => se.error_details }
      else se) }

/-- `LogRepository.create_log`: append-only audit insert. -/
def repo_create_log (st : Store) (log : ExecutionLog) : Store :=
  { st with logs := st.logs ++ [log] }

/-! ## Execution service (src/src/services/execution_service.py)

Every operation returns the store as left behind by the writes it made
before returning or raising, together with an `Except` result. -/

/-- The service's error taxonomy: `ExecutionServiceError`,
`ExecutionNotFoundError`, `DuplicateExecutionError` (carrying the existing
record) and `ExecutionStateError` (carrying its message string). -/
inductive SvcError
  | service (msg : String)
  | not_found (execution_id : Nat)
  | duplicate (existing : WorkflowExecution)
  | state (msg : String)
deriving DecidableEq, Repr

/-- `ExecutionService.get_execution`: raises `ExecutionNotFoundError`. -/
def svc_get_execution (st : Store) (execution_id : Nat) :
    Except SvcError WorkflowExecution :=
  match get_execution_by_id st execution_id with
  | none => .error (.not_found execution_id)
  | some e => .ok e

/-- `ExecutionService.create_execution`: validates the workflow, dedups on
`(workflow_id, idempotency_key)` raising `DuplicateExecutionError` with
the existing record, otherwise inserts a fresh `pending` execution and
appends an audit log. -/
def svc_create_execution (st : Store) (workflow_id : Nat)
    (idempotency_key : String) (input_data : Data) (max_retries : Nat) :
    Store × Except SvcError WorkflowExecution :=
  match get_workflow_by_id st workflow_id with
  | none => (st, .error (.service "Workflow not found"))
  | some wf =>
    if wf.status ≠ WorkflowStatus.active then
      (st, .error (.service "Cannot execute workflow in non-active status"))
    else
      match get_execution_by_idempotency_key st workflow_id idempotency_key with
      | some existing => (st, .error (.duplicate existing))
      | none =>
        let e := WorkflowExecution.create st.next_id workflow_id
          idempotency_key input_data max_retries
        let st1 := repo_create_execution { st with next_id := st.next_id + 1 } e
        let st2 := repo_create_log st1 ⟨e.id, none, .info, "Execution created"⟩
        (st2, .ok e)

/-- `ExecutionService.transition_status`: load, validate through the state
machine (raising `ExecutionStateError` before any write), then persist the
partial update and append the audit log. -/
def svc_transition_status (st : Store) (execution_id : Nat)
    (new_status : ExecutionStatus) (error_message : Option String)
    (current_step_order : Option Int) :
    Store × Except SvcError WorkflowExecution :=
  match svc_get_execution st execution_id with
  | .error err => (st, .error err)
  | .ok ex =>
    match validate_transition ex.status new_status with
    | .error ⟨a, b⟩ =>
      (st, .error (.state ("Invalid transition from " ++ a.value ++
        " to " ++ b.value)))
    | .ok _ =>
      let st1 := repo_update_execution_status st execution_id new_status
        error_message current_step_order
      let st2 := repo_create_log st1 ⟨execution_id, none, .info,
        "Status changed: " ++ ex.status.value ++ " to " ++ new_status.value⟩
      (st2, .ok { ex with
        status := new_status,
        error_message := match error_message with
          | some m => some m
          | none => ex.error_message,
        current_step_order := match current_step_order with
          | some c => c
          | none => ex.current_step_order })

/-- `ExecutionService.start_execution`. -/
def svc_start_execution (st : Store) (execution_id : Nat) :
    Store × Except SvcError WorkflowExecution :=
  svc_transition_status st execution_id .running none none

/-- `ExecutionService.complete_execution`: transition, then persist the
output data. -/
def svc_complete_execution (st : Store) (execution_id : Nat)
    (output_data : Option ExecOutput) :
    Store × Except SvcError WorkflowExecution :=
  match svc_transition_status st execution_id .completed none none with
  | (st1, .error err) => (st1, .error err)
  | (st1, .ok ex) =>
    match output_data with
    | some out =>
      (repo_set_output_data st1 execution_id out,
        .ok { ex with output_data := some out })
    | none => (st1, .ok ex)

/-- `ExecutionService.fail_execution`. -/
def svc_fail_execution (st : Store) (execution_id : Nat)
    (error_message : String) : Store × Except SvcError WorkflowExecution :=
  svc_transition_status st execution_id .failed (some error_message) none

/-- `ExecutionService.cancel_execution`: refuses when the *entity's*
`is_terminal` holds (which includes `failed`), otherwise transitions to
`cancelled`. -/
def svc_cancel_execution (st : Store) (execution_id : Nat) :
    Store × Except SvcError WorkflowExecution :=
  match svc_get_execution st execution_id with
  | .error err => (st, .error err)
  | .ok ex =>
    if ex.is_terminal then
      (st, .error (.state ("Cannot cancel execution in terminal status: " ++
        ex.status.value)))
    else
      svc_transition_status st execution_id .cancelled none none

/-- `ExecutionService.create_step_execution`. -/
def svc_create_step_execution (st : Store) (execution_id step_id : Nat)
    (step_order : Int) (input_data : Data) : Store × StepExecution :=
  let se := StepExecution.create st.next_id execution_id step_id step_order
    input_data
  (repo_create_step_execution { st with next_id := st.next_id + 1 } se, se)

/-- `ExecutionService.update_step_execution`. -/
def svc_update_step_execution (st : Store) (step_exec_id : Nat)
    (status : StepStatus) (output_data : Option Data)
    (error_message : Option String) (error_details : Option Data) : Store :=
  repo_update_step_execution st step_exec_id status output_data
    error_message error_details

/-! ## Helper lemmas on `List.find?` -/

theorem find?_map_stable {α : Type} (f : α → α) (p : α → Bool)
    (hpf : ∀ x, p (f x) = p x) :
    ∀ (l : List α) (e : α), l.find? p = some e →
      (l.map f).find? p = some (f e) := by
  intro l
  induction l with
  | nil => intro e h; simp at h
  | cons x t ih =>
      intro e h
      by_cases hx : p x = true
      · rw [List.find?_cons_of_pos _ hx] at h
        cases h
        rw [List.map_cons, List.find?_cons_of_pos _ (by rw [hpf]; exact hx)]
      · rw [List.find?_cons_of_neg _ (by simpa using hx)] at h
        rw [List.map_cons,
          List.find?_cons_of_neg _ (by rw [hpf]; simpa using hx)]
        exact ih e h

theorem find?_append_of_none {α : Type} (p : α → Bool) :
    ∀ (l l' : List α), l.find? p = none → (l ++ l').find? p = l'.find? p := by
  intro l
  induction l with
  | nil => simp
  | cons x t ih =>
      intro l' h
      by_cases hx : p x = true
      · rw [List.find?_cons_of_pos _ hx] at h; exact absurd h (by simp)
      · rw [List.find?_cons_of_neg _ (by simpa using hx)] at h
        rw [List.cons_append,
          List.find?_cons_of_neg _ (by simpa using hx)]
        exact ih l' h

/-- A successful `transition_status` with no optional fields: the store
gains the row update and the audit log entry, and the updated entity is
returned. -/
theorem transition_status_ok (st : Store) (eid : Nat) (ns : ExecutionStatus)
    (e : WorkflowExecution) (hget : get_execution_by_id st eid = some e)
    (hcan : can_transition e.status ns = true) :
    svc_transition_status st eid ns none none =
      (repo_create_log (repo_update_execution_status st eid ns none none)
        ⟨eid, none, .info,
          "Status changed: " ++ e.status.value ++ " to " ++ ns.value⟩,
       .ok { e with status := ns }) := by
  unfold svc_transition_status svc_get_execution validate_transition
  rw [hget]
  simp [hcan]

/-- After a status-only row update, looking the execution up again yields
the same record with the new status. -/
theorem get_after_update_none (st : Store) (eid : Nat)
    (ns : ExecutionStatus) (e : WorkflowExecution)
    (hget : get_execution_by_id st eid = some e) :
    get_execution_by_id (repo_update_execution_status st eid ns none none)
      eid = some { e with status := ns } := by
  have hget' : st.executions.find? (fun x : WorkflowExecution => x.id == eid)
      = some e := hget
  have hpe : (e.id == eid) = true := by
    have h := List.find?_some hget'
    simpa using h
  have hmap := find?_map_stable
    (fun x : WorkflowExecution =>
      if x.id == eid then { x with status := ns } else x)
    (fun x : WorkflowExecution => x.id == eid)
    (fun x => by by_cases hx : (x.id == eid) = true <;> simp [hx])
    st.executions e hget'
  simp only [hpe, if_true] at hmap
  show (st.executions.map fun x =>
      if x.id == eid then { x with status := ns } else x).find?
    (fun x : WorkflowExecution => x.id == eid) = some { e with status := ns }
  exact hmap

/-! ## Claim C10: transition_status is atomic on error -/

/-- C10: when the state machine forbids `current → new_status`,
`transition_status` raises `ExecutionStateError` and returns the store
exactly as it received it — the execution row is unchanged and no audit
log entry has been appended. -/
theorem transition_status_error_atomic :
    ∀ (st : Store) (eid : Nat) (ns : ExecutionStatus)
      (em : Option String) (cso : Option Int) (e : WorkflowExecution),
      get_execution_by_id st eid = some e →
      can_transition e.status ns = false →
      svc_transition_status st eid ns em cso =
        (st, .error (.state ("Invalid transition from " ++ e.status.value ++
          " to " ++ ns.value))) := by
  intro st eid ns em cso e hget hcan
  unfold svc_transition_status svc_get_execution validate_transition
  rw [hget]
  simp [hcan]

/-- A store with a single pending execution, used to exercise C10. -/
def storeC10 : Store :=
  { workflows := [], executions := [WorkflowExecution.create 1 7 "key-a" [] 3],
    step_executions := [], logs := [], next_id := 2 }

/-- Concrete application of C10: `pending → completed` is refused with an
untouched store. -/
theorem transition_status_error_atomic_witness :
    svc_transition_status storeC10 1 .completed none none =
      (storeC10, .error (.state
        "Invalid transition from pending to completed")) :=
  transition_status_error_atomic storeC10 1 .completed none none
    (WorkflowExecution.create 1 7 "key-a" [] 3) (by decide) (by decide)

/-! ## Claim C2: cancelling a failed execution -/

/-- A failed execution and a store holding it. -/
def execFailedC2 : WorkflowExecution :=
  { WorkflowExecution.create 1 1 "key-1" [] 3 with status := .failed }

def storeC2 : Store :=
  { workflows := [], executions := [execFailedC2],
    step_executions := [], logs := [], next_id := 2 }

/-- C2 counterexample: on an execution whose status is `failed`,
`cancel_execution` does not transition it to `cancelled`; it raises
`ExecutionStateError` naming the terminal status and leaves the store
untouched, because the entity's `is_terminal` includes `failed`. -/
theorem cancel_execution_failed_counterexample :
    svc_cancel_execution storeC2 1 =
      (storeC2, .error (.state
        "Cannot cancel execution in terminal status: failed")) ∧
    (svc_cancel_execution storeC2 1).2 ≠
      .ok { execFailedC2 with status := .cancelled } := by
  constructor <;> decide

/-- C2 (amended): `cancel_execution` refuses with `ExecutionStateError`
on every execution whose entity-level `is_terminal` holds — which covers
`failed` as well as `completed` and `cancelled` — and succeeds exactly on
`pending`, `running` and `retrying` executions, for which the transition
to `cancelled` is legal and is persisted. -/
theorem cancel_execution_amended :
    ∀ (st : Store) (eid : Nat) (e : WorkflowExecution),
      get_execution_by_id st eid = some e →
      (e.is_terminal = true →
        svc_cancel_execution st eid =
          (st, .error (.state ("Cannot cancel execution in terminal status: "
            ++ e.status.value)))) ∧
      (e.is_terminal = false →
        (svc_cancel_execution st eid).2 = .ok { e with status := .cancelled } ∧
        get_execution_by_id (svc_cancel_execution st eid).1 eid =
          some { e with status := .cancelled }) := by
  intro st eid e hget
  constructor
  · intro hterm
    unfold svc_cancel_execution svc_get_execution
    rw [hget]
    simp [hterm]
  · intro hnonterm
    have hcan : can_transition e.status .cancelled = true := by
      cases hs : e.status <;>
        simp [WorkflowExecution.is_terminal, hs] at hnonterm ⊢ <;>
        decide
    have hres : svc_cancel_execution st eid =
        svc_transition_status st eid .cancelled none none := by
      unfold svc_cancel_execution svc_get_execution
      rw [hget]
      simp [hnonterm]
    rw [hres, transition_status_ok st eid .cancelled e hget hcan]
    exact ⟨rfl, get_after_update_none st eid .cancelled e hget⟩

/-- A running execution and a store holding it, to exercise the amended
C2. -/
def execRunningC2 : WorkflowExecution :=
  { WorkflowExecution.create 1 1 "key-2" [] 3 with status := .running }

def storeC2run : Store :=
  { workflows := [], executions := [execRunningC2],
    step_executions := [], logs := [], next_id := 2 }

/-- Concrete application of the amended C2: a running execution is
cancelled. -/
theorem cancel_execution_amended_witness :
    (svc_cancel_execution storeC2run 1).2 =
      .ok { execRunningC2 with status := .cancelled } :=
  (((cancel_execution_amended storeC2run 1 execRunningC2 (by decide)).2)
    (by decide)).1

/-! ## Claim C5: idempotent execution creation -/

/-- C5: on an active workflow, the first `create_execution(W, K)` inserts
a fresh `pending` execution; calling again with the same key (whatever the
other arguments) raises `DuplicateExecutionError` carrying exactly the
record the first call returned, and the store is unchanged by the second
call. -/
theorem create_execution_idempotent :
    ∀ (st : Store) (wid : Nat) (key : String) (input input2 : Data)
      (maxR maxR2 : Nat) (wf : Workflow),
      get_workflow_by_id st wid = some wf →
      wf.status = .active →
      get_execution_by_idempotency_key st wid key = none →
      ∃ (st1 : Store) (e : WorkflowExecution),
        svc_create_execution st wid key input maxR = (st1, .ok e) ∧
        e.status = .pending ∧ e.id = st.next_id ∧
        e.workflow_id = wid ∧ e.idempotency_key = key ∧
        st1.executions = st.executions ++ [e] ∧
        svc_create_execution st1 wid key input2 maxR2 =
          (st1, .error (.duplicate e)) := by
  intro st wid key input input2 maxR maxR2 wf hwf hactive hnone
  have hnone' : st.executions.find?
      (fun x : WorkflowExecution =>
        x.workflow_id == wid && x.idempotency_key == key) = none := hnone
  refine ⟨repo_create_log
      (repo_create_execution { st with next_id := st.next_id + 1 }
        (WorkflowExecution.create st.next_id wid key input maxR))
      ⟨st.next_id, none, .info, "Execution created"⟩,
    WorkflowExecution.create st.next_id wid key input maxR,
    ?_, rfl, rfl, rfl, rfl, rfl, ?_⟩
  · unfold svc_create_execution
    rw [hwf, hnone]
    simp [hactive, WorkflowExecution.create]
  · have hwf1 : get_workflow_by_id
        (repo_create_log
          (repo_create_execution { st with next_id := st.next_id + 1 }
            (WorkflowExecution.create st.next_id wid key input maxR))
          ⟨st.next_id, none, .info, "Execution created"⟩) wid =
        some wf := hwf
    have hfound : get_execution_by_idempotency_key
        (repo_create_log
          (repo_create_execution { st with next_id := st.next_id + 1 }
            (WorkflowExecution.create st.next_id wid key input maxR))
          ⟨st.next_id, none, .info, "Execution created"⟩) wid key =
        some (WorkflowExecution.create st.next_id wid key input maxR) := by
      show (st.executions ++
        [WorkflowExecution.create st.next_id wid key input maxR]).find?
          (fun x : WorkflowExecution =>
            x.workflow_id == wid && x.idempotency_key == key) =
        some (WorkflowExecution.create st.next_id wid key input maxR)
      rw [find?_append_of_none _ _ _ hnone']
      simp [WorkflowExecution.create]
    unfold svc_create_execution
    rw [hwf1, hfound]
    simp [hactive]

/-- An active workflow and a store holding it, to exercise C5. -/
def wfC5 : Workflow :=
  { id := 4, name := "wf", description := "", status := .active,
    version := 1, steps := [] }

def storeC5 : Store :=
  { workflows := [wfC5], executions := [], step_executions := [],
    logs := [], next_id := 10 }

/-- Concrete application of C5 on `storeC5`. -/
theorem create_execution_idempotent_witness :
    ∃ (st1 : Store) (e : WorkflowExecution),
      svc_create_execution storeC5 4 "K" [] 3 = (st1, .ok e) ∧
      e.status = .pending ∧ e.id = storeC5.next_id ∧
      e.workflow_id = 4 ∧ e.idempotency_key = "K" ∧
      st1.executions = storeC5.executions ++ [e] ∧
      svc_create_execution st1 4 "K" [] 5 = (st1, .error (.duplicate e)) :=
  create_execution_idempotent storeC5 4 "K" [] [] 3 5 wfC5
    (by rfl) rfl (by rfl)

/-! ## Orchestrator (src/src/services/orchestrator.py)

Handlers are external effects; an invocation is embedded as an oracle
mapping the 1-based attempt number and the input to that invocation's
outcome.  Interpolated details inside log message strings are elided; log
entries keep their level and step-execution linkage. -/

/-- `StepExecutionError`: the failing step's name and the error text. -/
structure StepError where
  step_name : String
  message : String
deriving DecidableEq, Repr

/-- `OrchestratorError` and service errors propagating out of `execute`. -/
inductive OrchError
  | orchestrator (msg : String)
  | svc (err : SvcError)
deriving DecidableEq, Repr

/-- A task handler as seen by the orchestrator. -/
abbrev Handler := Nat → Data → Except String Data

/-- `TaskHandlerRegistry`: task types to handlers. -/
abbrev Registry := List (String × Handler)

/-- `TaskHandlerRegistry.get_handler`. -/
def get_handler (reg : Registry) (task_type : String) : Option Handler :=
  (reg.find? (fun p => p.1 == task_type)).map (fun p => p.2)

/-- The retry settings from src/src/config/settings.py, as exact
rationals. -/
structure OrchConfig where
  RETRY_BASE_DELAY : ℚ
  RETRY_MAX_DELAY : ℚ
deriving DecidableEq, Repr

/-- The defaults: 1.0 s base, 300.0 s cap. -/
def defaultConfig : OrchConfig :=
  { RETRY_BASE_DELAY := 1, RETRY_MAX_DELAY := 300 }

/-- `WorkflowOrchestrator._calculate_backoff`:
`min(RETRY_BASE_DELAY * 2 ** attempt, RETRY_MAX_DELAY)`. -/
def calculate_backoff (cfg : OrchConfig) (attempt : Nat) : ℚ :=
  min (cfg.RETRY_BASE_DELAY * 2 ^ attempt) cfg.RETRY_MAX_DELAY

/-- `WorkflowOrchestrator._fail_step` (the unused `execution_id`
parameter of the source is dropped). -/
def fail_step (st : Store) (step_exec_id : Nat) (error_message : String)
    (error_details : Option Data) : Store :=
  svc_update_step_execution st step_exec_id .failed none
    (some error_message) error_details

/-- The `while attempt < step.max_retries` retry loop inside
`_execute_step`: `k` attempts have already been made.  Returns the store,
the list of back-off sleeps performed (in seconds), and either the
handler output or the final error. -/
def exec_attempt_loop (cfg : OrchConfig) (h : Handler) (step : WorkflowStep)
    (execution_id step_exec_id : Nat) (input_data : Data) (st : Store)
    (k : Nat) (last_error : Option String) :
    Store × List ℚ × Except (Option String) Data :=
  if hk : k < step.max_retries then
    let attempt := k + 1
    let st1 := svc_update_step_execution st step_exec_id .running
      none none none
    let st2 := repo_create_log st1 ⟨execution_id, some step_exec_id, .info,
      "Starting step " ++ step.name⟩
    match h attempt input_data with
    | .ok output =>
      let st3 := svc_update_step_execution st2 step_exec_id .completed
        (some output) none none
      let st4 := repo_create_log st3 ⟨execution_id, some step_exec_id, .info,
        "Step " ++ step.name ++ " completed successfully"⟩
      (st4, [], .ok output)
    | .error e =>
      let st3 := repo_create_log st2 ⟨execution_id, some step_exec_id, .error,
        "Step " ++ step.name ++ " attempt failed: " ++ e⟩
      if attempt < step.max_retries then
        let d := calculate_backoff cfg attempt
        let r := exec_attempt_loop cfg h step execution_id step_exec_id
          input_data st3 attempt (some e)
        (r.1, d :: r.2.1, r.2.2)
      else
        exec_attempt_loop cfg h step execution_id step_exec_id
          input_data st3 attempt (some e)
  else
    (st, [], .error last_error)
termination_by step.max_retries - k

/-- `WorkflowOrchestrator._execute_step`: create the StepExecution record,
resolve the handler (failing without retries when unknown), run the retry
loop, and on exhaustion mark the record failed and raise
`StepExecutionError`. -/
def execute_step (cfg : OrchConfig) (reg : Registry) (execution_id : Nat)
    (step : WorkflowStep) (input_data : Data) (st : Store) :
    Store × List ℚ × Except StepError Data :=
  let created := svc_create_step_execution st execution_id step.id
    step.step_order input_data
  let st1 := created.1
  let step_exec := created.2
  match get_handler reg step.task_type with
  | none =>
    let msg := "No handler registered for task type: " ++ step.task_type
    let st2 := fail_step st1 step_exec.id msg none
    (st2, [], .error ⟨step.name, msg⟩)
  | some h =>
    match exec_attempt_loop cfg h step execution_id step_exec.id input_data
      st1 0 none with
    | (st2, sleeps, .ok output) => (st2, sleeps, .ok output)
    | (st2, sleeps, .error last_error) =>
      let lastmsg := match last_error with
        | some m => m
        | none => "None"
      let st3 := fail_step st2 step_exec.id lastmsg
        (some [("final_attempt", JVal.num step.max_retries),
               ("error", JVal.str lastmsg)])
      (st3, sleeps, .error ⟨step.name,
        "Step failed after " ++ toString step.max_retries ++ " attempts: " ++
          lastmsg⟩)

/-- The step selection in `execute`: steps with `step_order` at least the
execution's `current_step_order`, sorted ascending (Python's stable
sort). -/
def steps_to_run (wf : Workflow) (current : Int) : List WorkflowStep :=
  (wf.steps.filter (fun s => decide (current ≤ s.step_order))).mergeSort
    (fun a b => decide (a.step_order ≤ b.step_order))

/-- The string form of a `StepExecutionError`. -/
def StepError.str (e : StepError) : String :=
  "Step '" ++ e.step_name ++ "' failed: " ++ e.message

/-- The per-step body of `execute`'s main loop.  Besides the final store
and the outcome it returns the trace of `current_step_order` checkpoints
written, in order. -/
def orch_loop (cfg : OrchConfig) (reg : Registry) (execution_id : Nat) :
    List WorkflowStep → Data → List (String × Data) → Store →
    Store × List Int × Except StepError (List (String × Data) × Data)
  | [], current_data, step_outputs, st =>
    (st, [], .ok (step_outputs, current_data))
  | step :: rest, current_data, step_outputs, st =>
    match execute_step cfg reg execution_id step current_data st with
    | (st1, _, .ok output) =>
      let step_outputs2 := step_outputs ++ [(step.name, output)]
      let current_data2 :=
        if output.isEmpty then current_data else dataUpdate current_data output
      let st2 := repo_update_execution_status st1 execution_id .running
        none (some (step.step_order + 1))
      let r := orch_loop cfg reg execution_id rest current_data2
        step_outputs2 st2
      (r.1, (step.step_order + 1) :: r.2.1, r.2.2)
    | (st1, _, .error err) => (st1, [], .error err)

/-- The outcome dictionary `execute` returns. -/
inductive ExecuteResult
  | already_completed (output : Option ExecOutput)
  | completed (output : ExecOutput)
  | failed (execution_id : Nat)
deriving DecidableEq, Repr

/-- `WorkflowOrchestrator.execute`: load execution and workflow, dispatch
on terminal statuses, transition to running when pending or retrying,
run the remaining steps in order, then complete — or fail with a message
naming the step. -/
def execute (cfg : OrchConfig) (reg : Registry) (st : Store)
    (execution_id : Nat) : Store × Except OrchError ExecuteResult :=
  match svc_get_execution st execution_id with
  | .error err => (st, .error (.svc err))
  | .ok execution =>
    match get_workflow_by_id st execution.workflow_id with
    | none => (st, .error (.orchestrator "Workflow not found"))
    | some workflow =>
      if execution.status = .completed then
        (st, .ok (.already_completed execution.output_data))
      else if execution.status = .cancelled then
        (st, .error (.orchestrator "Execution was cancelled"))
      else
        match (if execution.status = .pending ∨ execution.status = .retrying
          then svc_start_execution st execution_id
          else (st, .ok execution)) with
        | (st1, .error err) => (st1, .error (.svc err))
        | (st1, .ok execution1) =>
          let steps := steps_to_run workflow execution1.current_step_order
          match orch_loop cfg reg execution_id steps execution1.input_data
            [] st1 with
          | (st2, _, .ok (step_outputs, current_data)) =>
            let final_output : ExecOutput := ⟨step_outputs, current_data⟩
            match svc_complete_execution st2 execution_id
              (some final_output) with
            | (st3, .ok _) => (st3, .ok (.completed final_output))
            | (st3, .error _) =>
              let failed := svc_fail_execution st3 execution_id
                "Unexpected error"
              (failed.1, .error (.orchestrator "Execution failed"))
          | (st2, _, .error serr) =>
            let failed := svc_fail_execution st2 execution_id
              ("Step '" ++ serr.step_name ++ "' failed: " ++ serr.str)
            (failed.1, .ok (.failed execution_id))

/-! ## Effect of the retry loop on the StepExecution table -/

/-- The row update performed when an attempt starts. -/
def stepRunUpd (sid : Nat) (se : StepExecution) : StepExecution :=
  if se.id == sid then { se with status := .running } else se

/-- The row update performed on handler success. -/
def stepCompleteUpd (sid : Nat) (out : Data) (se : StepExecution) :
    StepExecution :=
  if se.id == sid then
    { se with status := .completed, output_data := some out } else se

/-- The row update performed on exhaustion. -/
def stepFailUpd (sid : Nat) (em : String) (ed : Data) (se : StepExecution) :
    StepExecution :=
  if se.id == sid then
    { se with
      status := .failed,
      error_message := some em,
      error_details := some ed }
  else se

theorem run_upd_eq (st : Store) (sid : Nat) :
    svc_update_step_execution st sid .running none none none =
      { st with step_executions := st.step_executions.map (stepRunUpd sid) } :=
  rfl

theorem complete_upd_eq (st : Store) (sid : Nat) (out : Data) :
    svc_update_step_execution st sid .completed (some out) none none =
      { st with step_executions :=
          st.step_executions.map (stepCompleteUpd sid out) } :=
  rfl

theorem fail_step_eq (st : Store) (sid : Nat) (em : String) (ed : Data) :
    fail_step st sid em (some ed) =
      { st with step_executions :=
          st.step_executions.map (stepFailUpd sid em ed) } :=
  rfl

theorem compUpd_runUpd (sid : Nat) (out : Data) (se : StepExecution) :
    stepCompleteUpd sid out (stepRunUpd sid se) = stepCompleteUpd sid out se := by
  unfold stepRunUpd stepCompleteUpd
  by_cases hse : (se.id == sid) = true <;> simp [hse]

theorem runUpd_runUpd (sid : Nat) (se : StepExecution) :
    stepRunUpd sid (stepRunUpd sid se) = stepRunUpd sid se := by
  unfold stepRunUpd
  by_cases hse : (se.id == sid) = true <;> simp [hse]

theorem failUpd_runUpd (sid : Nat) (em : String) (ed : Data)
    (se : StepExecution) :
    stepFailUpd sid em ed (stepRunUpd sid se) = stepFailUpd sid em ed se := by
  unfold stepRunUpd stepFailUpd
  by_cases hse : (se.id == sid) = true <;> simp [hse]

theorem map_pointwise {α β : Type} (f g : α → β) :
    ∀ (l : List α), (∀ x, f x = g x) → l.map f = l.map g := by
  intro l h
  induction l with
  | nil => rfl
  | cons x t ih => rw [List.map_cons, List.map_cons, h x, ih]

theorem map_comp_collapse {α : Type} (f g k : α → α) (l : List α)
    (hpt : ∀ x, g (f x) = k x) : (l.map f).map g = l.map k := by
  rw [List.map_map]
  exact map_pointwise _ _ l hpt

theorem map_eq_self_of_mem {α : Type} (f : α → α) :
    ∀ (l : List α), (∀ x ∈ l, f x = x) → l.map f = l := by
  intro l h
  induction l with
  | nil => rfl
  | cons x t ih =>
      rw [List.map_cons, h x (List.mem_cons_self x t),
        ih (fun y hy => h y (List.mem_cons_of_mem x hy))]

/-- Behaviour of the retry loop when the handler fails on every attempt
after the first `k` and succeeds on attempt `succ_at = k + n + 1`:
the result is the output, one back-off sleep per failed attempt, and the
StepExecution row updated in place to `completed`. -/
theorem exec_attempt_loop_succeeds
    (cfg : OrchConfig) (h : Handler) (step : WorkflowStep)
    (eid sid : Nat) (input : Data) (errf : Nat → String) (out : Data)
    (succ_at : Nat) (hle : succ_at ≤ step.max_retries) :
    ∀ (n k : Nat), k + n + 1 = succ_at →
      (∀ i, k < i → i < succ_at → h i input = .error (errf i)) →
      h succ_at input = .ok out →
      ∀ (st : Store) (lastErr : Option String),
        (exec_attempt_loop cfg h step eid sid input st k lastErr).2.2 =
          .ok out ∧
        (exec_attempt_loop cfg h step eid sid input st k lastErr).2.1 =
          (List.range n).map (fun j => calculate_backoff cfg (k + 1 + j)) ∧
        (exec_attempt_loop cfg h step eid sid input st k lastErr).1.step_executions
          = st.step_executions.map (stepCompleteUpd sid out) ∧
        (exec_attempt_loop cfg h step eid sid input st k lastErr).1.next_id
          = st.next_id := by
  intro n
  induction n with
  | zero =>
      intro k hk hfail hsucc st lastErr
      have hklt : k < step.max_retries := by omega
      have hk1 : k + 1 = succ_at := by omega
      rw [exec_attempt_loop, dif_pos hklt]
      simp only [hk1, hsucc, run_upd_eq, complete_upd_eq, repo_create_log]
      refine ⟨trivial, by simp, ?_, trivial⟩
      exact map_comp_collapse _ _ _ _ (compUpd_runUpd sid out)
  | succ n ih =>
      intro k hk hfail hsucc st lastErr
      have hklt : k < step.max_retries := by omega
      have hk1lt : k + 1 < step.max_retries := by omega
      have herr : h (k + 1) input = .error (errf (k + 1)) :=
        hfail (k + 1) (by omega) (by omega)
      rw [exec_attempt_loop, dif_pos hklt]
      simp only [herr, run_upd_eq, repo_create_log, if_pos hk1lt]
      have := ih (k + 1) (by omega)
        (fun i hi1 hi2 => hfail i (by omega) hi2) hsucc
        { st with
          step_executions := st.step_executions.map (stepRunUpd sid),
          logs := (st.logs ++ [⟨eid, some sid, .info,
            "Starting step " ++ step.name⟩]) ++ [⟨eid, some sid, .error,
            "Step " ++ step.name ++ " attempt failed: " ++ errf (k + 1)⟩] }
        (some (errf (k + 1)))
      obtain ⟨h1, h2, h3, h4⟩ := this
      refine ⟨h1, ?_, ?_, h4⟩
      · rw [h2, List.range_succ_eq_map, List.map_cons, List.map_map]
        refine congrArg₂ _ (by norm_num) ?_
        exact map_pointwise _ _ _ (fun j => by
          show calculate_backoff cfg (k + 1 + 1 + j) =
            calculate_backoff cfg (k + 1 + (j + 1))
          congr 1
          omega)
      · rw [h3]
        exact map_comp_collapse _ _ _ _ (compUpd_runUpd sid out)

/-- Behaviour of the retry loop when the handler fails on every attempt:
the result is the last error, one back-off sleep per non-final failed
attempt, and the StepExecution row left in `running` (the caller then
marks it failed). -/
theorem exec_attempt_loop_exhausts
    (cfg : OrchConfig) (h : Handler) (step : WorkflowStep)
    (eid sid : Nat) (input : Data) (errf : Nat → String) :
    ∀ (n k : Nat), k + n + 1 = step.max_retries →
      (∀ i, k < i → i ≤ step.max_retries → h i input = .error (errf i)) →
      ∀ (st : Store) (lastErr : Option String),
        (exec_attempt_loop cfg h step eid sid input st k lastErr).2.2 =
          .error (some (errf step.max_retries)) ∧
        (exec_attempt_loop cfg h step eid sid input st k lastErr).2.1 =
          (List.range n).map (fun j => calculate_backoff cfg (k + 1 + j)) ∧
        (exec_attempt_loop cfg h step eid sid input st k lastErr).1.step_executions
          = st.step_executions.map (stepRunUpd sid) ∧
        (exec_attempt_loop cfg h step eid sid input st k lastErr).1.next_id
          = st.next_id := by
  intro n
  induction n with
  | zero =>
      intro k hk hfail st lastErr
      have hklt : k < step.max_retries := by omega
      have herr : h (k + 1) input = .error (errf (k + 1)) :=
        hfail (k + 1) (by omega) (by omega)
      have hk1 : k + 1 = step.max_retries := by omega
      rw [exec_attempt_loop, dif_pos hklt]
      simp only [herr, run_upd_eq, repo_create_log, if_neg (by omega : ¬ k + 1 < step.max_retries)]
      rw [exec_attempt_loop, dif_neg (by omega : ¬ k + 1 < step.max_retries)]
      exact ⟨by rw [hk1], rfl, rfl, rfl⟩
  | succ n ih =>
      intro k hk hfail st lastErr
      have hklt : k < step.max_retries := by omega
      have hk1lt : k + 1 < step.max_retries := by omega
      have herr : h (k + 1) input = .error (errf (k + 1)) :=
        hfail (k + 1) (by omega) (by omega)
      rw [exec_attempt_loop, dif_pos hklt]
      simp only [herr, run_upd_eq, repo_create_log, if_pos hk1lt]
      have := ih (k + 1) (by omega)
        (fun i hi1 hi2 => hfail i (by omega) hi2)
        { st with
          step_executions := st.step_executions.map (stepRunUpd sid),
          logs := (st.logs ++ [⟨eid, some sid, .info,
            "Starting step " ++ step.name⟩]) ++ [⟨eid, some sid, .error,
            "Step " ++ step.name ++ " attempt failed: " ++ errf (k + 1)⟩] }
        (some (errf (k + 1)))
      obtain ⟨h1, h2, h3, h4⟩ := this
      refine ⟨h1, ?_, ?_, h4⟩
      · rw [h2, List.range_succ_eq_map, List.map_cons, List.map_map]
        refine congrArg₂ _ (by norm_num) ?_
        exact map_pointwise _ _ _ (fun j => by
          show calculate_backoff cfg (k + 1 + 1 + j) =
            calculate_backoff cfg (k + 1 + (j + 1))
          congr 1
          omega)
      · rw [h3]
        exact map_comp_collapse _ _ _ _ (runUpd_runUpd sid)

/-- Unfolding of `execute_step` once the handler is resolved. -/
theorem execute_step_unfold (cfg : OrchConfig) (reg : Registry)
    (eid : Nat) (step : WorkflowStep) (input : Data) (st : Store)
    (h : Handler) (hreg : get_handler reg step.task_type = some h) :
    execute_step cfg reg eid step input st =
      match exec_attempt_loop cfg h step eid st.next_id input
        (repo_create_step_execution { st with next_id := st.next_id + 1 }
          (StepExecution.create st.next_id eid step.id step.step_order input))
        0 none with
      | (st2, sleeps, .ok output) => (st2, sleeps, .ok output)
      | (st2, sleeps, .error last_error) =>
        (fail_step st2 st.next_id
          (match last_error with | some m => m | none => "None")
          (some [("final_attempt", JVal.num step.max_retries),
                 ("error", JVal.str
                   (match last_error with | some m => m | none => "None"))]),
         sleeps,
         .error ⟨step.name, "Step failed after " ++
           toString step.max_retries ++ " attempts: " ++
           (match last_error with | some m => m | none => "None")⟩) := by
  unfold execute_step svc_create_step_execution
  rw [hreg]
  rfl

/-- Full behaviour of `_execute_step` when the handler fails on attempts
`1..succ_at-1` and succeeds on attempt `succ_at ≤ max_retries`. -/
theorem execute_step_ok_behavior
    (cfg : OrchConfig) (reg : Registry) (eid : Nat) (step : WorkflowStep)
    (input : Data) (st : Store) (h : Handler) (errf : Nat → String)
    (out : Data) (succ_at : Nat)
    (hreg : get_handler reg step.task_type = some h)
    (hfresh : ∀ se ∈ st.step_executions, se.id ≠ st.next_id)
    (h1 : 1 ≤ succ_at) (h2 : succ_at ≤ step.max_retries)
    (hfail : ∀ i, 1 ≤ i → i < succ_at → h i input = .error (errf i))
    (hsucc : h succ_at input = .ok out) :
    ∃ st2 : Store,
      execute_step cfg reg eid step input st =
        (st2, (List.range (succ_at - 1)).map
          (fun j => calculate_backoff cfg (j + 1)), .ok out) ∧
      st2.step_executions = st.step_executions ++
        [{ StepExecution.create st.next_id eid step.id step.step_order input
            with status := .completed, output_data := some out }] := by
  have hU := execute_step_unfold cfg reg eid step input st h hreg
  set L := exec_attempt_loop cfg h step eid st.next_id input
    (repo_create_step_execution { st with next_id := st.next_id + 1 }
      (StepExecution.create st.next_id eid step.id step.step_order input))
    0 none with hLdef
  obtain ⟨hres, hsl, hse, hnid⟩ := exec_attempt_loop_succeeds cfg h step eid
    st.next_id input errf out succ_at h2 (succ_at - 1) 0 (by omega)
    (fun i hi1 hi2 => hfail i (by omega) hi2) hsucc
    (repo_create_step_execution { st with next_id := st.next_id + 1 }
      (StepExecution.create st.next_id eid step.id step.step_order input))
    none
  have hsl2 : L.2.1 = (List.range (succ_at - 1)).map
      (fun j => calculate_backoff cfg (j + 1)) := by
    rw [← hLdef] at hsl
    rw [hsl]
    exact map_pointwise _ _ _ (fun j => by congr 1; omega)
  rw [← hLdef] at hres hse
  have htrip : L = (L.1, (List.range (succ_at - 1)).map
      (fun j => calculate_backoff cfg (j + 1)), .ok out) := by
    rw [← hres, ← hsl2]
  refine ⟨L.1, ?_, ?_⟩
  · rw [hU, htrip]
  · rw [hse]
    show (st.step_executions ++
      [StepExecution.create st.next_id eid step.id step.step_order input]).map
        (stepCompleteUpd st.next_id out) = _
    rw [List.map_append]
    have hold : st.step_executions.map (stepCompleteUpd st.next_id out) =
        st.step_executions :=
      map_eq_self_of_mem _ _ (fun x hx => by
        unfold stepCompleteUpd
        rw [if_neg (by simp [hfresh x hx])])
    rw [hold]
    simp [stepCompleteUpd, StepExecution.create]

/-- Full behaviour of `_execute_step` when the handler fails on every
attempt `1..max_retries`. -/
theorem execute_step_exhaust_behavior
    (cfg : OrchConfig) (reg : Registry) (eid : Nat) (step : WorkflowStep)
    (input : Data) (st : Store) (h : Handler) (errf : Nat → String)
    (hreg : get_handler reg step.task_type = some h)
    (hfresh : ∀ se ∈ st.step_executions, se.id ≠ st.next_id)
    (h1 : 1 ≤ step.max_retries)
    (hfail : ∀ i, 1 ≤ i → i ≤ step.max_retries → h i input = .error (errf i)) :
    ∃ st2 : Store,
      execute_step cfg reg eid step input st =
        (st2, (List.range (step.max_retries - 1)).map
          (fun j => calculate_backoff cfg (j + 1)),
          .error ⟨step.name, "Step failed after " ++
            toString step.max_retries ++ " attempts: " ++
            errf step.max_retries⟩) ∧
      st2.step_executions = st.step_executions ++
        [{ StepExecution.create st.next_id eid step.id step.step_order input
            with
            status := .failed,
            error_message := some (errf step.max_retries),
            error_details := some [("final_attempt",
              JVal.num step.max_retries),
              ("error", JVal.str (errf step.max_retries))] }] := by
  have hU := execute_step_unfold cfg reg eid step input st h hreg
  set L := exec_attempt_loop cfg h step eid st.next_id input
    (repo_create_step_execution { st with next_id := st.next_id + 1 }
      (StepExecution.create st.next_id eid step.id step.step_order input))
    0 none with hLdef
  obtain ⟨hres, hsl, hse, hnid⟩ := exec_attempt_loop_exhausts cfg h step eid
    st.next_id input errf (step.max_retries - 1) 0 (by omega)
    (fun i hi1 hi2 => hfail i (by omega) hi2)
    (repo_create_step_execution { st with next_id := st.next_id + 1 }
      (StepExecution.create st.next_id eid step.id step.step_order input))
    none
  have hsl2 : L.2.1 = (List.range (step.max_retries - 1)).map
      (fun j => calculate_backoff cfg (j + 1)) := by
    rw [← hLdef] at hsl
    rw [hsl]
    exact map_pointwise _ _ _ (fun j => by congr 1; omega)
  rw [← hLdef] at hres hse
  have htrip : L = (L.1, (List.range (step.max_retries - 1)).map
      (fun j => calculate_backoff cfg (j + 1)),
      .error (some (errf step.max_retries))) := by
    rw [← hres, ← hsl2]
  refine ⟨fail_step L.1 st.next_id (errf step.max_retries)
    (some [("final_attempt", JVal.num step.max_retries),
           ("error", JVal.str (errf step.max_retries))]), ?_, ?_⟩
  · rw [hU, htrip]
  · rw [fail_step_eq, hse]
    show ((st.step_executions ++
      [StepExecution.create st.next_id eid step.id step.step_order
        input]).map (stepRunUpd st.next_id)).map
      (stepFailUpd st.next_id (errf step.max_retries)
        [("final_attempt", JVal.num step.max_retries),
         ("error", JVal.str (errf step.max_retries))]) = _
    rw [map_comp_collapse _ _ _ _ (failUpd_runUpd st.next_id
      (errf step.max_retries) _), List.map_append]
    have hold : st.step_executions.map (stepFailUpd st.next_id
        (errf step.max_retries)
        [("final_attempt", JVal.num step.max_retries),
         ("error", JVal.str (errf step.max_retries))]) =
        st.step_executions :=
      map_eq_self_of_mem _ _ (fun x hx => by
        unfold stepFailUpd
        rw [if_neg (by simp [hfresh x hx])])
    rw [hold]
    simp [stepFailUpd, StepExecution.create]

/-! ## Claim C1: StepExecution records across step retries -/

/-- C1 (amended): one `_execute_step` invocation creates exactly one
StepExecution record, with `attempt_number` fixed at 1, and updates it in
place: when the handler fails on attempts `1..k-1` and succeeds on
attempt `k ≤ max_retries` the single record ends `completed` with the
output; on exhaustion the single record ends `failed` carrying the last
error. -/
theorem execute_step_updates_one_record :
    ∀ (cfg : OrchConfig) (reg : Registry) (eid : Nat) (step : WorkflowStep)
      (input : Data) (st : Store) (h : Handler) (errf : Nat → String),
      get_handler reg step.task_type = some h →
      (∀ se ∈ st.step_executions, se.id ≠ st.next_id) →
      (StepExecution.create st.next_id eid step.id step.step_order
        input).attempt_number = 1 ∧
      (∀ (succ_at : Nat) (out : Data),
        1 ≤ succ_at → succ_at ≤ step.max_retries →
        (∀ i, 1 ≤ i → i < succ_at → h i input = .error (errf i)) →
        h succ_at input = .ok out →
        ∃ st2, execute_step cfg reg eid step input st =
          (st2, (List.range (succ_at - 1)).map
            (fun j => calculate_backoff cfg (j + 1)), .ok out) ∧
          st2.step_executions = st.step_executions ++
            [{ StepExecution.create st.next_id eid step.id step.step_order
                input with
                status := .completed, output_data := some out }]) ∧
      (1 ≤ step.max_retries →
        (∀ i, 1 ≤ i → i ≤ step.max_retries → h i input = .error (errf i)) →
        ∃ st2, execute_step cfg reg eid step input st =
          (st2, (List.range (step.max_retries - 1)).map
            (fun j => calculate_backoff cfg (j + 1)),
            .error ⟨step.name, "Step failed after " ++
              toString step.max_retries ++ " attempts: " ++
              errf step.max_retries⟩) ∧
          st2.step_executions = st.step_executions ++
            [{ StepExecution.create st.next_id eid step.id step.step_order
                input with
                status := .failed,
                error_message := some (errf step.max_retries),
                error_details := some [("final_attempt",
                  JVal.num step.max_retries),
                  ("error", JVal.str (errf step.max_retries))] }]) := by
  intro cfg reg eid step input st h errf hreg hfresh
  refine ⟨rfl, ?_, ?_⟩
  · intro succ_at out h1 h2 hfail hsucc
    exact execute_step_ok_behavior cfg reg eid step input st h errf out
      succ_at hreg hfresh h1 h2 hfail hsucc
  · intro h1 hfail
    exact execute_step_exhaust_behavior cfg reg eid step input st h errf
      hreg hfresh h1 hfail

/-- A handler that fails on attempt 1 and succeeds on attempt 2, and the
fixtures around it, exercising C1. -/
def flakyHandlerC1 : Handler := fun attempt _ =>
  if attempt == 1 then .error "boom" else .ok [("r", JVal.num 1)]

def regC1 : Registry := [("flaky", flakyHandlerC1)]

def stepC1 : WorkflowStep :=
  { id := 5, workflow_id := 3, name := "s0", task_type := "flaky",
    step_order := 0, config := [], timeout_seconds := 30, max_retries := 3 }

def storeC1 : Store :=
  { workflows := [], executions := [], step_executions := [], logs := [],
    next_id := 100 }

/-- C1 counterexample: with a handler failing once then succeeding
(`k = 2 ≤ max_retries = 3`), `_execute_step` leaves exactly ONE
StepExecution record for the (execution, step) pair — with
`attempt_number = 1` and status `completed` — not two records with
attempt numbers 1 and 2. -/
theorem execute_step_records_counterexample :
    ((execute_step defaultConfig regC1 9 stepC1 [] storeC1).1.step_executions.filter
      (fun r => r.execution_id == 9 && r.step_id == 5)).map
      (fun r => (r.attempt_number, r.status)) = [(1, StepStatus.completed)] ∧
    ((execute_step defaultConfig regC1 9 stepC1 []
      storeC1).1.step_executions.filter
      (fun r => r.execution_id == 9 && r.step_id == 5)).length ≠ 2 := by
  obtain ⟨st2, heq, hse⟩ := execute_step_ok_behavior defaultConfig regC1 9
    stepC1 [] storeC1 flakyHandlerC1 (fun _ => "boom") [("r", JVal.num 1)] 2
    rfl (by simp [storeC1]) (by omega) (by decide)
    (fun i hi1 hi2 => by
      have hi : i = 1 := by omega
      subst hi
      rfl)
    rfl
  rw [heq]
  show ((st2.step_executions.filter _).map _ = _) ∧ _
  rw [hse]
  constructor <;> decide

/-- Concrete application of the amended C1 on the flaky-handler
fixtures. -/
theorem execute_step_updates_one_record_witness :
    ∃ st2, execute_step defaultConfig regC1 9 stepC1 [] storeC1 =
      (st2, (List.range 1).map
        (fun j => calculate_backoff defaultConfig (j + 1)),
        .ok [("r", JVal.num 1)]) ∧
      st2.step_executions = storeC1.step_executions ++
        [{ StepExecution.create storeC1.next_id 9 stepC1.id
            stepC1.step_order [] with
            status := .completed,
            output_data := some [("r", JVal.num 1)] }] :=
  ((execute_step_updates_one_record defaultConfig regC1 9 stepC1 [] storeC1
      flakyHandlerC1 (fun _ => "boom") rfl (by simp [storeC1])).2.1)
    2 [("r", JVal.num 1)] (by omega) (by decide)
    (fun i hi1 hi2 => by
      have hi : i = 1 := by omega
      subst hi
      rfl)
    rfl

/-! ## Claim C8: exponential backoff schedule -/

/-- C8: `_calculate_backoff k = min(RETRY_BASE_DELAY * 2^k,
RETRY_MAX_DELAY)` with defaults 1.0 s and 300.0 s, and `_execute_step`
sleeps exactly that amount after the `k`-th failed attempt for every
non-final attempt `k` — one sleep per failed attempt before the last,
and none after the final attempt (whether it succeeds or exhausts). -/
theorem execute_step_backoff_schedule :
    ∀ (cfg : OrchConfig) (reg : Registry) (eid : Nat) (step : WorkflowStep)
      (input : Data) (st : Store) (h : Handler) (errf : Nat → String),
      get_handler reg step.task_type = some h →
      (∀ se ∈ st.step_executions, se.id ≠ st.next_id) →
      (∀ k, calculate_backoff cfg k =
        min (cfg.RETRY_BASE_DELAY * 2 ^ k) cfg.RETRY_MAX_DELAY) ∧
      defaultConfig.RETRY_BASE_DELAY = 1 ∧
      defaultConfig.RETRY_MAX_DELAY = 300 ∧
      (∀ succ_at out, 1 ≤ succ_at → succ_at ≤ step.max_retries →
        (∀ i, 1 ≤ i → i < succ_at → h i input = .error (errf i)) →
        h succ_at input = .ok out →
        (execute_step cfg reg eid step input st).2.1 =
          (List.range (succ_at - 1)).map
            (fun j => calculate_backoff cfg (j + 1))) ∧
      (1 ≤ step.max_retries →
        (∀ i, 1 ≤ i → i ≤ step.max_retries → h i input = .error (errf i)) →
        (execute_step cfg reg eid step input st).2.1 =
          (List.range (step.max_retries - 1)).map
            (fun j => calculate_backoff cfg (j + 1))) := by
  intro cfg reg eid step input st h errf hreg hfresh
  refine ⟨fun k => rfl, rfl, rfl, ?_, ?_⟩
  · intro succ_at out h1 h2 hfail hsucc
    obtain ⟨st2, heq, _⟩ := execute_step_ok_behavior cfg reg eid step input
      st h errf out succ_at hreg hfresh h1 h2 hfail hsucc
    rw [heq]
  · intro h1 hfail
    obtain ⟨st2, heq, _⟩ := execute_step_exhaust_behavior cfg reg eid step
      input st h errf hreg hfresh h1 hfail
    rw [heq]

/-- An always-failing handler and fixtures, exercising C8: with
`max_retries = 3` and the default configuration the sleeps are exactly
2 s and 4 s. -/
def failHandlerC8 : Handler := fun _ _ => .error "down"

def regC8 : Registry := [("always-down", failHandlerC8)]

def stepC8 : WorkflowStep :=
  { id := 6, workflow_id := 3, name := "s1", task_type := "always-down",
    step_order := 0, config := [], timeout_seconds := 30, max_retries := 3 }

def storeC8 : Store :=
  { workflows := [], executions := [], step_executions := [], logs := [],
    next_id := 200 }

/-- Concrete application of C8: sleeps `[min(1*2^1, 300), min(1*2^2,
300)] = [2, 4]` seconds, and none after the third (final) attempt. -/
theorem execute_step_backoff_schedule_witness :
    (execute_step defaultConfig regC8 9 stepC8 [] storeC8).2.1 =
      [(2 : ℚ), 4] := by
  have h := (execute_step_backoff_schedule defaultConfig regC8 9 stepC8 []
    storeC8 failHandlerC8 (fun _ => "down") rfl
    (by simp [storeC8])).2.2.2.2 (by decide) (fun i hi1 hi2 => rfl)
  rw [h]
  show [calculate_backoff defaultConfig 1, calculate_backoff defaultConfig 2]
    = [(2 : ℚ), 4]
  norm_num [calculate_backoff, defaultConfig]

/-! ## Claim C4: ordered execution and monotone checkpoints -/

/-- The checkpoint trace of the step loop is the image of a prefix of the
step list under `step_order + 1`. -/
theorem orch_loop_trace_take (cfg : OrchConfig) (reg : Registry)
    (eid : Nat) :
    ∀ (steps : List WorkflowStep) (data : Data)
      (outs : List (String × Data)) (st : Store),
      ∃ k, (orch_loop cfg reg eid steps data outs st).2.1 =
        (steps.take k).map (fun s => s.step_order + 1) := by
  intro steps
  induction steps with
  | nil => intro data outs st; exact ⟨0, rfl⟩
  | cons step rest ih =>
      intro data outs st
      rcases hr : execute_step cfg reg eid step data st with ⟨st1, ds, res⟩
      cases res with
      | error err => exact ⟨0, by simp [orch_loop, hr]⟩
      | ok output =>
          obtain ⟨k, hk⟩ := ih
            (if output.isEmpty then data else dataUpdate data output)
            (outs ++ [(step.name, output)])
            (repo_update_execution_status st1 eid .running none
              (some (step.step_order + 1)))
          refine ⟨k + 1, ?_⟩
          simp only [orch_loop, hr]
          rw [List.take_succ_cons, List.map_cons, hk]

/-- The checkpoint trace never goes below a bound under which every
remaining step's order-plus-one sits, and never decreases. -/
theorem orch_loop_trace_chain (cfg : OrchConfig) (reg : Registry)
    (eid : Nat) :
    ∀ (steps : List WorkflowStep) (b : Int),
      (∀ s ∈ steps, b ≤ s.step_order + 1) →
      List.Pairwise (fun a c => a.step_order ≤ c.step_order) steps →
      ∀ (data : Data) (outs : List (String × Data)) (st : Store),
        List.Chain' (· ≤ ·)
          (b :: (orch_loop cfg reg eid steps data outs st).2.1) := by
  intro steps
  induction steps with
  | nil => intro b hb hp data outs st; simp [orch_loop]
  | cons step rest ih =>
      intro b hb hp data outs st
      rcases hr : execute_step cfg reg eid step data st with ⟨st1, ds, res⟩
      cases res with
      | error err => simp [orch_loop, hr]
      | ok output =>
          have h1 : b ≤ step.step_order + 1 :=
            hb step (List.mem_cons_self step rest)
          have hpc := List.pairwise_cons.mp hp
          have hrest := ih (step.step_order + 1)
            (fun s hs => by have := hpc.1 s hs; omega) hpc.2
            (if output.isEmpty then data else dataUpdate data output)
            (outs ++ [(step.name, output)])
            (repo_update_execution_status st1 eid .running none
              (some (step.step_order + 1)))
          simp only [orch_loop, hr]
          rw [List.chain'_cons]
          exact ⟨h1, hrest⟩

/-- C4: the orchestrator's step selection takes exactly the steps with
`step_order ≥ current_step_order`, in ascending order — a step whose
order is below the current checkpoint (one already committed) is never
selected again, and the first step selected has the least remaining
order — and the checkpoints the loop durably writes are each
`step.step_order + 1` for the successive executed steps, forming a
never-decreasing sequence starting at or above the initial
`current_step_order`. -/
theorem execute_resumes_in_order :
    ∀ (cfg : OrchConfig) (reg : Registry) (eid : Nat) (wf : Workflow)
      (c : Int),
      (∀ s ∈ steps_to_run wf c, c ≤ s.step_order) ∧
      List.Pairwise (fun a b => a.step_order ≤ b.step_order)
        (steps_to_run wf c) ∧
      (∀ s ∈ wf.steps, s.step_order < c → s ∉ steps_to_run wf c) ∧
      (∀ hd, (steps_to_run wf c).head? = some hd →
        ∀ s ∈ steps_to_run wf c, hd.step_order ≤ s.step_order) ∧
      (∀ (data : Data) (outs : List (String × Data)) (st : Store),
        (∃ k, (orch_loop cfg reg eid (steps_to_run wf c) data outs st).2.1 =
          ((steps_to_run wf c).take k).map (fun s => s.step_order + 1)) ∧
        List.Chain' (· ≤ ·)
          (c :: (orch_loop cfg reg eid (steps_to_run wf c) data outs
            st).2.1)) := by
  intro cfg reg eid wf c
  have hmem : ∀ s ∈ steps_to_run wf c, c ≤ s.step_order := by
    intro s hs
    unfold steps_to_run at hs
    have := List.mem_filter.mp (List.mem_mergeSort.mp hs)
    simpa using this.2
  have hsorted : List.Pairwise (fun a b => a.step_order ≤ b.step_order)
      (steps_to_run wf c) := by
    have := @List.sorted_mergeSort WorkflowStep
      (fun a b : WorkflowStep => decide (a.step_order ≤ b.step_order))
      (fun a b cc hab hbc => by
        simp only [decide_eq_true_eq] at hab hbc ⊢
        omega)
      (fun a b => by
        simp only [Bool.or_eq_true, decide_eq_true_eq]
        omega)
      (wf.steps.filter (fun s => decide (c ≤ s.step_order)))
    exact this.imp (fun h => by simpa using h)
  refine ⟨hmem, hsorted, ?_, ?_, ?_⟩
  · intro s _ hlt hin
    have := hmem s hin
    omega
  · intro hd hhd s hs
    cases hlist : steps_to_run wf c with
    | nil => rw [hlist] at hhd; exact absurd hhd (by simp)
    | cons hd2 t =>
        rw [hlist] at hhd hs
        have hhd2 : hd2 = hd := by simpa using hhd
        subst hhd2
        rw [hlist] at hsorted
        rcases List.mem_cons.mp hs with hseq | hst
        · subst hseq; exact le_refl _
        · exact (List.pairwise_cons.mp hsorted).1 s hst
  · intro data outs st
    refine ⟨orch_loop_trace_take cfg reg eid _ data outs st, ?_⟩
    exact orch_loop_trace_chain cfg reg eid _ c
      (fun s hs => by have := hmem s hs; omega) hsorted data outs st

/-- Fixtures for C4: a two-step workflow resumed at checkpoint 1. -/
def stepC4a : WorkflowStep :=
  { id := 11, workflow_id := 8, name := "a", task_type := "log",
    step_order := 0, config := [], timeout_seconds := 30, max_retries := 3 }

def stepC4b : WorkflowStep :=
  { id := 12, workflow_id := 8, name := "b", task_type := "log",
    step_order := 1, config := [], timeout_seconds := 30, max_retries := 3 }

def wfC4 : Workflow :=
  { id := 8, name := "wf4", description := "", status := .active,
    version := 1, steps := [stepC4a, stepC4b] }

/-- Concrete application of C4: after step 0 committed (checkpoint 1),
re-dispatch never selects step 0 again. -/
theorem execute_resumes_in_order_witness :
    stepC4a ∉ steps_to_run wfC4 1 :=
  (execute_resumes_in_order defaultConfig [] 9 wfC4 1).2.2.1 stepC4a
    (by simp [wfC4]) (by decide)

/-! ## Task queue (src/src/worker/queue.py)

Redis state for one queue tenant, with an explicit natural-number clock
passed into each operation.  `lpush` prepends; key existence follows the
stored expiry instants; `next_msg_id` models uuid4.  Messages are kept
structurally (their JSON serialisation is a bijection on these fields);
the `dlq_reason`/`dlq_timestamp` payload annotations are fields of their
own. -/

/-- `QueueMessage` from queue.py. -/
structure QueueMessage where
  id : Nat
  execution_id : Nat
  task_type : String
  payload : Data
  dlq_reason : Option String
  dlq_timestamp : Option Nat
  created_at : Nat
  attempt : Nat
  visibility_timeout : Nat
deriving DecidableEq, Repr

/-- `QueueMessage.create`: fresh message with attempt 1. -/
def QueueMessage.create (id execution_id : Nat) (task_type : String)
    (payload : Data) (created_at visibility_timeout : Nat) : QueueMessage :=
  { id := id, execution_id := execution_id, task_type := task_type,
    payload := payload, dlq_reason := none, dlq_timestamp := none,
    created_at := created_at, attempt := 1,
    visibility_timeout := visibility_timeout }

/-- The five queue structures of §4.3 plus the id source and the
configured visibility timeout. -/
structure QState where
  ready : List QueueMessage
  processing : List QueueMessage
  proc_keys : List (Nat × Nat)
  delayed : List (QueueMessage × Int)
  dlq : List QueueMessage
  idem_keys : List (String × Nat)
  next_msg_id : Nat
  visibility_timeout : Nat
deriving DecidableEq, Repr

/-- A string key exists at `now` when some entry for it has not yet
expired. -/
def keyLive (keys : List (String × Nat)) (now : Nat) (k : String) : Bool :=
  keys.any (fun p => p.1 == k && decide (now < p.2))

/-- Existence of the per-message visibility-timeout key. -/
def procKeyLive (keys : List (Nat × Nat)) (now : Nat) (id : Nat) : Bool :=
  keys.any (fun p => p.1 == id && decide (now < p.2))

/-- The construct-and-push tail of `TaskQueue.enqueue`. -/
def enqueue_push (st : QState) (now : Nat) (execution_id : Nat)
    (task_type : String) (payload : Data) (delay_seconds : Int) :
    QState × Option QueueMessage :=
  let message := QueueMessage.create st.next_msg_id execution_id task_type
    payload now st.visibility_timeout
  let st1 := { st with next_msg_id := st.next_msg_id + 1 }
  if delay_seconds > 0 then
    ({ st1 with delayed := st1.delayed ++ [(message, now + delay_seconds)] },
      some message)
  else
    ({ st1 with ready := message :: st1.ready }, some message)

/-- `TaskQueue.enqueue`: dedup on the idempotency key (returning `none`
and writing nothing), else set the key with 24-hour TTL and push onto the
ready queue or, with positive delay, into the delayed set with score
`now + delay_seconds`. -/
def enqueue (st : QState) (now : Nat) (execution_id : Nat)
    (task_type : String) (payload : Data) (idempotency_key : Option String)
    (delay_seconds : Int) : QState × Option QueueMessage :=
  match idempotency_key with
  | some k =>
    if keyLive st.idem_keys now k then (st, none)
    else
      enqueue_push
        { st with idem_keys := st.idem_keys ++ [(k, now + 86400)] }
        now execution_id task_type payload delay_seconds
  | none => enqueue_push st now execution_id task_type payload delay_seconds

/-- The body of `recover_stale_messages`: iterate over the snapshot of
`Q:processing`, skipping entries whose visibility key is still live;
remove each stale entry, increment its attempt, and requeue it when the
incremented attempt is at most 3, else push it to the DLQ annotated with
`max_attempts_exceeded`. -/
def recoverLoop (now : Nat) :
    List QueueMessage → QState → Nat → QState × Nat
  | [], st, recovered => (st, recovered)
  | m :: rest, st, recovered =>
    if procKeyLive st.proc_keys now m.id then
      recoverLoop now rest st recovered
    else
      let st1 := { st with processing := st.processing.erase m }
      let m2 := { m with attempt := m.attempt + 1 }
      let st2 :=
        if m2.attempt ≤ 3 then { st1 with ready := m2 :: st1.ready }
        else { st1 with dlq :=
          { m2 with dlq_reason := some "max_attempts_exceeded" } :: st1.dlq }
      recoverLoop now rest st2 (recovered + 1)

/-- `TaskQueue.recover_stale_messages`. -/
def recover_stale_messages (st : QState) (now : Nat) : QState × Nat :=
  recoverLoop now st.processing st 0

/-! ## Claim C6: enqueue idempotency and routing -/

/-- C6: when the idempotency key already exists, `enqueue` returns `null`
and writes nothing at all; otherwise it records the key with a 24-hour
TTL, constructs the message, pushes it onto the ready queue when
`delay_seconds = 0` or into the delayed set with score
`now + delay_seconds` when `delay_seconds > 0`, and returns the
message. -/
theorem enqueue_dedup_and_push :
    ∀ (st : QState) (now eid : Nat) (tt : String) (payload : Data)
      (k : String) (d : Int),
      (keyLive st.idem_keys now k = true →
        enqueue st now eid tt payload (some k) d = (st, none)) ∧
      (keyLive st.idem_keys now k = false → d = 0 →
        enqueue st now eid tt payload (some k) d =
          ({ st with
              idem_keys := st.idem_keys ++ [(k, now + 86400)],
              next_msg_id := st.next_msg_id + 1,
              ready := QueueMessage.create st.next_msg_id eid tt payload now
                st.visibility_timeout :: st.ready },
            some (QueueMessage.create st.next_msg_id eid tt payload now
              st.visibility_timeout))) ∧
      (keyLive st.idem_keys now k = false → 0 < d →
        enqueue st now eid tt payload (some k) d =
          ({ st with
              idem_keys := st.idem_keys ++ [(k, now + 86400)],
              next_msg_id := st.next_msg_id + 1,
              delayed := st.delayed ++
                [(QueueMessage.create st.next_msg_id eid tt payload now
                  st.visibility_timeout, (now : Int) + d)] },
            some (QueueMessage.create st.next_msg_id eid tt payload now
              st.visibility_timeout))) := by
  intro st now eid tt payload k d
  refine ⟨?_, ?_, ?_⟩
  · intro hlive
    simp [enqueue, hlive]
  · intro hlive hd
    subst hd
    simp [enqueue, hlive, enqueue_push]
  · intro hlive hd
    simp [enqueue, hlive, enqueue_push, hd]

/-- Fixtures for C6. -/
def qstC6 : QState :=
  { ready := [], processing := [], proc_keys := [], delayed := [],
    dlq := [], idem_keys := [], next_msg_id := 1, visibility_timeout := 30 }

def qstC6after : QState :=
  { qstC6 with
    idem_keys := [("K", 86400)],
    next_msg_id := 2,
    ready := [QueueMessage.create 1 7 "t" [] 0 30] }

/-- Concrete application of C6: first enqueue with key `K` pushes; a
second one ten seconds later (within 24 h) returns `null`. -/
theorem enqueue_dedup_and_push_witness :
    enqueue qstC6 0 7 "t" [] (some "K") 0 =
      (qstC6after, some (QueueMessage.create 1 7 "t" [] 0 30)) ∧
    (enqueue qstC6after 10 8 "t" [] (some "K") 0).2 = none := by
  constructor
  · have h := (enqueue_dedup_and_push qstC6 0 7 "t" [] "K" 0).2.1
      (by decide) rfl
    rw [h]
    rfl
  · exact congrArg Prod.snd
      ((enqueue_dedup_and_push qstC6after 10 8 "t" [] "K" 0).1 (by decide))

/-! ## Claim C7: recovery of stale messages -/

/-- Fixtures for C7: a single stale in-flight message already on its
third attempt. -/
def msgC7 : QueueMessage :=
  { id := 1, execution_id := 2, task_type := "t", payload := [],
    dlq_reason := none, dlq_timestamp := none, created_at := 0,
    attempt := 3, visibility_timeout := 30 }

def qstC7 : QState :=
  { ready := [], processing := [msgC7], proc_keys := [], delayed := [],
    dlq := [], idem_keys := [], next_msg_id := 10,
    visibility_timeout := 30 }

/-- C7 counterexample: a stale entry whose `attempt` field reads 3 is NOT
requeued onto the ready queue; the code increments the attempt first and
compares the incremented value against 3, so the entry goes to the DLQ
with `dlq_reason = "max_attempts_exceeded"`. -/
theorem recover_stale_attempt3_counterexample :
    recover_stale_messages qstC7 100 =
      ({ qstC7 with
          processing := [],
          dlq := [{ msgC7 with
            attempt := 4,
            dlq_reason := some "max_attempts_exceeded" }] }, 1) ∧
    (recover_stale_messages qstC7 100).1.ready = [] := by
  constructor <;> decide

theorem sublist_erase_of_cons_sublist {α : Type} [DecidableEq α] :
    ∀ {L : List α} {m : α} {rest : List α},
      (m :: rest).Sublist L → L.Nodup → rest.Sublist (L.erase m) := by
  intro L
  induction L with
  | nil => intro m rest h _; exact absurd h (by simp)
  | cons x t ih =>
      intro m rest h hnd
      cases h with
      | cons _ h2 =>
          have hmt : m ∈ t := h2.subset (List.mem_cons_self m rest)
          have hxm : ¬ (x == m) = true := by
            simp only [beq_iff_eq]
            intro hx
            subst hx
            exact (List.nodup_cons.mp hnd).1 hmt
          rw [List.erase_cons_tail (by simpa using hxm)]
          exact (ih h2 (List.nodup_cons.mp hnd).2).cons x
      | cons₂ _ h2 =>
          rw [List.erase_cons_head]
          exact h2

/-- Invariant of `recoverLoop` over a duplicate-free processing list:
counts, removals, requeues and DLQ routes, expressed against the
snapshot being iterated.  The visibility keys (never modified by the
loop) are abstracted as `keys`. -/
theorem recoverLoop_spec (now : Nat) (keys : List (Nat × Nat)) :
    ∀ (snapshot : List QueueMessage) (st : QState) (n : Nat),
      st.proc_keys = keys →
      snapshot.Sublist st.processing → st.processing.Nodup →
      (recoverLoop now snapshot st n).2 =
        n + (snapshot.filter
          (fun m => !(procKeyLive keys now m.id))).length ∧
      (recoverLoop now snapshot st n).1.processing =
        st.processing.filter (fun x =>
          !((!(procKeyLive keys now x.id)) && snapshot.contains x)) ∧
      (recoverLoop now snapshot st n).1.ready =
        ((snapshot.filter (fun m =>
          !(procKeyLive keys now m.id) &&
            decide (m.attempt + 1 ≤ 3))).reverse.map
          (fun m => { m with attempt := m.attempt + 1 })) ++ st.ready ∧
      (recoverLoop now snapshot st n).1.dlq =
        ((snapshot.filter (fun m =>
          !(procKeyLive keys now m.id) &&
            decide (3 < m.attempt + 1))).reverse.map
          (fun m => { m with
            attempt := m.attempt + 1,
            dlq_reason := some "max_attempts_exceeded" })) ++ st.dlq ∧
      (recoverLoop now snapshot st n).1.proc_keys = keys ∧
      (recoverLoop now snapshot st n).1.delayed = st.delayed ∧
      (recoverLoop now snapshot st n).1.idem_keys = st.idem_keys := by
  intro snapshot
  induction snapshot with
  | nil =>
      intro st n hkeys _ _
      refine ⟨by simp [recoverLoop], ?_, by simp [recoverLoop],
        by simp [recoverLoop], by simp [recoverLoop, hkeys],
        rfl, rfl⟩
      simp [recoverLoop]
  | cons m rest ih =>
      intro st n hkeys hsub hnd
      have hrest_sub : rest.Sublist st.processing :=
        (List.sublist_cons_self m rest).trans hsub
      by_cases hlive : procKeyLive keys now m.id = true
      · obtain ⟨ihn, ihp, ihr, ihd, ihk, ihdel, ihik⟩ :=
          ih st n hkeys hrest_sub hnd
        have hlive0 : procKeyLive st.proc_keys now m.id = true := by
          rw [hkeys]; exact hlive
        refine ⟨?_, ?_, ?_, ?_, ?_, ?_, ?_⟩ <;>
          simp only [recoverLoop, hlive0, if_true]
        · rw [ihn, List.filter_cons_of_neg (by simp [hlive])]
        · rw [ihp]
          refine List.filter_congr (fun x _ => ?_)
          by_cases hxm : x = m
          · subst hxm; simp [hlive]
          · simp [List.contains_cons, hxm]
        · rw [ihr, List.filter_cons_of_neg (by simp [hlive])]
        · rw [ihd, List.filter_cons_of_neg (by simp [hlive])]
        · exact ihk
        · exact ihdel
        · exact ihik
      · have hlive2 : procKeyLive keys now m.id = false := by
          simpa using hlive
        have hlive0 : procKeyLive st.proc_keys now m.id = false := by
          rw [hkeys]; exact hlive2
        have hnd2 : (st.processing.erase m).Nodup := hnd.erase m
        have hsub2 : rest.Sublist (st.processing.erase m) :=
          sublist_erase_of_cons_sublist hsub hnd
        by_cases hatt : m.attempt + 1 ≤ 3
        · obtain ⟨ihn, ihp, ihr, ihd, ihk, ihdel, ihik⟩ := ih
            { st with
              processing := st.processing.erase m,
              ready := { m with attempt := m.attempt + 1 } :: st.ready }
            (n + 1) (by simpa using hkeys) hsub2 hnd2
          refine ⟨?_, ?_, ?_, ?_, ?_, ?_, ?_⟩ <;>
            simp only [recoverLoop, hlive0, Bool.false_eq_true, if_false,
              if_pos hatt]
          · rw [ihn, List.filter_cons_of_pos (by simp [hlive2])]
            simp only [List.length_cons]
            omega
          · rw [ihp]
            simp only
            rw [List.Nodup.erase_eq_filter hnd, List.filter_filter]
            refine List.filter_congr (fun x _ => ?_)
            by_cases hxm : x = m
            · subst hxm; simp [hlive2]
            · simp [List.contains_cons, hxm, Ne.symm hxm]
          · rw [ihr]
            simp only
            rw [List.filter_cons_of_pos (by simp [hlive2]; omega),
              List.reverse_cons, List.map_append, List.append_assoc]
            rfl
          · rw [ihd]
            simp only
            rw [List.filter_cons_of_neg (by simp [hlive2]; omega)]
          · exact ihk
          · exact ihdel
          · exact ihik
        · obtain ⟨ihn, ihp, ihr, ihd, ihk, ihdel, ihik⟩ := ih
            { st with
              processing := st.processing.erase m,
              dlq := { m with
                attempt := m.attempt + 1,
                dlq_reason := some "max_attempts_exceeded" } :: st.dlq }
            (n + 1) (by simpa using hkeys) hsub2 hnd2
          refine ⟨?_, ?_, ?_, ?_, ?_, ?_, ?_⟩ <;>
            simp only [recoverLoop, hlive0, Bool.false_eq_true, if_false,
              if_neg hatt]
          · rw [ihn, List.filter_cons_of_pos (by simp [hlive2])]
            simp only [List.length_cons]
            omega
          · rw [ihp]
            simp only
            rw [List.Nodup.erase_eq_filter hnd, List.filter_filter]
            refine List.filter_congr (fun x _ => ?_)
            by_cases hxm : x = m
            · subst hxm; simp [hlive2]
            · simp [List.contains_cons, hxm, Ne.symm hxm]
          · rw [ihr]
            simp only
            rw [List.filter_cons_of_neg (by simp [hlive2]; omega)]
          · rw [ihd]
            simp only
            rw [List.filter_cons_of_pos (by simp [hlive2]; omega),
              List.reverse_cons, List.map_append, List.append_assoc]
            rfl
          · exact ihk
          · exact ihdel
          · exact ihik

/-- C7 (amended): `recover_stale_messages` scans `Q:processing` and, for
every entry whose visibility key is missing, removes it and either
requeues it onto the ready queue with incremented attempt — when the
*incremented* attempt is at most 3 (original attempt ≤ 2) — or routes it
to the DLQ with `dlq_reason = "max_attempts_exceeded"`; entries whose key
is still live are untouched, the other structures are untouched, and the
call returns the number of messages recovered. -/
theorem recover_stale_behavior :
    ∀ (st : QState) (now : Nat), st.processing.Nodup →
      (recover_stale_messages st now).2 =
        (st.processing.filter
          (fun m => !(procKeyLive st.proc_keys now m.id))).length ∧
      (recover_stale_messages st now).1.processing =
        st.processing.filter (fun m => procKeyLive st.proc_keys now m.id) ∧
      (recover_stale_messages st now).1.ready =
        ((st.processing.filter (fun m =>
          !(procKeyLive st.proc_keys now m.id) &&
            decide (m.attempt + 1 ≤ 3))).reverse.map
          (fun m => { m with attempt := m.attempt + 1 })) ++ st.ready ∧
      (recover_stale_messages st now).1.dlq =
        ((st.processing.filter (fun m =>
          !(procKeyLive st.proc_keys now m.id) &&
            decide (3 < m.attempt + 1))).reverse.map
          (fun m => { m with
            attempt := m.attempt + 1,
            dlq_reason := some "max_attempts_exceeded" })) ++ st.dlq ∧
      (recover_stale_messages st now).1.proc_keys = st.proc_keys ∧
      (recover_stale_messages st now).1.delayed = st.delayed ∧
      (recover_stale_messages st now).1.idem_keys = st.idem_keys := by
  intro st now hnd
  unfold recover_stale_messages
  obtain ⟨h1, h2, h3, h4, h5, h6, h7⟩ := recoverLoop_spec now st.proc_keys
    st.processing st 0 rfl (List.Sublist.refl _) hnd
  refine ⟨by simpa using h1, ?_, h3, h4, h5, h6, h7⟩
  rw [h2]
  refine List.filter_congr (fun x hx => ?_)
  have hcx : st.processing.contains x = true := by
    simpa using hx
  rw [hcx]
  by_cases hl : procKeyLive st.proc_keys now x.id = true <;> simp [hl]

/-- Fixtures for C7's witness: one fresh in-flight message (its key still
live) and one stale message on its first attempt. -/
def msgC7fresh : QueueMessage :=
  { id := 21, execution_id := 2, task_type := "t", payload := [],
    dlq_reason := none, dlq_timestamp := none, created_at := 0,
    attempt := 1, visibility_timeout := 30 }

def msgC7stale : QueueMessage :=
  { id := 22, execution_id := 3, task_type := "t", payload := [],
    dlq_reason := none, dlq_timestamp := none, created_at := 0,
    attempt := 1, visibility_timeout := 30 }

def qstC7w : QState :=
  { ready := [], processing := [msgC7fresh, msgC7stale],
    proc_keys := [(21, 1000)], delayed := [], dlq := [], idem_keys := [],
    next_msg_id := 1, visibility_timeout := 30 }

/-- Concrete application of the amended C7: the stale message is requeued
with attempt 2, the fresh one stays in flight, and one recovery is
reported. -/
theorem recover_stale_behavior_witness :
    (recover_stale_messages qstC7w 100).2 = 1 ∧
    (recover_stale_messages qstC7w 100).1.processing = [msgC7fresh] ∧
    (recover_stale_messages qstC7w 100).1.ready =
      [{ msgC7stale with attempt := 2 }] := by
  obtain ⟨h1, h2, h3, _⟩ := recover_stale_behavior qstC7w 100 (by decide)
  refine ⟨?_, ?_, ?_⟩
  · rw [h1]; decide
  · rw [h2]; decide
  · rw [h3]; decide

end WEE
